import Mathlib

/-!
Verification development for the Chesster message-dispatch core.

The definitions below are a shallow embedding of the TypeScript source:
  * `src/utils/SlackEventsAPIUtils/chessterUtils.ts` (message normalization,
    context classification, listener matching, middleware application,
    `processChessterMessage`);
  * the Slack-bot module (`SlackEntityLookup`, `requiresModerator`,
    `findLeagueByMessageText`, `getLeague`, `SlackBot.handleMatch`).

JavaScript strings are modelled as Lean `String`; JS objects become
structures; JS `undefined` becomes `Option`; thrown exceptions become an
explicit `Except`/`Option` error component; replies sent through
`bot.reply`/`say` are collected into a `List String` in declaration order.
Regular-expression patterns are modelled extensionally as match functions
`String → Option (List String)` (JS `text.match(pattern)` returns the match
array or `null`).
-/

namespace Chesster

/-- The error taxonomy of the source: `StopControllerError` (a deliberate
abort raised by middleware / league resolution) versus a plain `Error`. -/
inductive ChessterError where
  | stopController (msg : String)
  | genericError (msg : String)
  deriving DecidableEq

/-- The four message categories of `HearsEventType` in the source. -/
inductive HearsEventType where
  | ambient
  | direct_message
  | direct_mention
  | bot_message
  deriving DecidableEq, BEq

/-- Slack channel, restricted to the fields the dispatch core reads.
Optional JS booleans read through `?? false` are modelled as plain `Bool`;
a JS-falsy (absent/empty) `name` or `id` is modelled as `""`. -/
structure SlackChannel where
  id : String
  name : String
  is_im : Bool
  is_group : Bool
  deriving DecidableEq

/-- League configuration (the `league` module is loaded from configuration;
only the fields the dispatch core reads are represented: the unique name,
the `config.alsoKnownAs` aliases, and the moderator set). -/
structure League where
  name : String
  alsoKnownAs : List String
  moderators : List String
  deriving DecidableEq

/-- Modelled from the spec: the `league` module is not under `src/`.
Per spec section 4.4 / glossary, a League has its own moderator set and
`isModerator` tests membership of the acting member identifier in it. -/
def League.isModeratorOf (l : League) (username : String) : Bool :=
  l.moderators.contains username

/-- A league member (`LeagueMember` in the source), restricted to the
fields the dispatch core reads. -/
structure LeagueMember where
  id : String
  name : String
  lichess_username : String
  deriving DecidableEq

/-- `ChessterMessage`/`CommandMessage` from the source, restricted to the
fields the dispatch core reads.  `member` and `league` are optional in the
source (`member?`, `league?`); `isModerator?` is read only through JS
truthiness, so it is modelled as a `Bool` (absent = `false`). -/
structure CommandMessage where
  user : String
  channel : SlackChannel
  text : String
  ts : String
  matchesList : List String
  member : Option LeagueMember := none
  league : Option League := none
  isModerator : Bool := false
  isPingModerator : Bool := false

/-- A regular-expression pattern, modelled extensionally by its match
function: `matchFn text` is `some matchArray` when `text.match(pattern)`
succeeds and `none` when it returns `null`. -/
def Pattern : Type := String → Option (List String)

-- ---------------------------------------------------------------------------
-- chessterUtils.ts
-- ---------------------------------------------------------------------------

/-- First-occurrence string replacement on character lists, the semantics of
JS `String.prototype.replace` with a string pattern: splice the replacement
in at the first index where `pat` occurs, or return the string unchanged. -/
def replaceFirstL (s pat repl : List Char) : List Char :=
  match s with
  | [] => if pat.isPrefixOf ([] : List Char) then repl else []
  | c :: rest =>
    if pat.isPrefixOf (c :: rest) then repl ++ (c :: rest).drop pat.length
    else c :: replaceFirstL rest pat repl

/-- Whether `pat` occurs as a contiguous substring of `s`. -/
def occursL (pat s : List Char) : Bool :=
  match s with
  | [] => pat.isEmpty
  | _ :: rest => pat.isPrefixOf s || occursL pat rest

/-- String wrapper for `replaceFirstL`. -/
def replaceFirst (s pat repl : String) : String :=
  ⟨replaceFirstL s.data pat.data repl.data⟩

/-- String wrapper for `occursL`. -/
def occurs (pat s : String) : Bool :=
  occursL pat.data s.data

/-- JS `String.prototype.toUpperCase`, modelled characterwise. -/
def jsToUpper (s : String) : String :=
  ⟨s.data.map Char.toUpper⟩

/-- JS `String.prototype.toLowerCase`, modelled characterwise. -/
def jsToLower (s : String) : String :=
  ⟨s.data.map Char.toLower⟩

/-- Split a character list at every occurrence of a separator character,
keeping empty segments (the semantics of JS `split` with a one-character
separator). -/
def splitCharsOn (sep : Char) (l : List Char) : List (List Char) :=
  match l with
  | [] => [[]]
  | c :: rest =>
    if c = sep then [] :: splitCharsOn sep rest
    else
      match splitCharsOn sep rest with
      | [] => [[c]]
      | h :: t => (c :: h) :: t

/-- JS `text.split(" ")`: split on every single space. -/
def jsSplitSpace (s : String) : List String :=
  (splitCharsOn ' ' s.data).map (fun l => ⟨l⟩)

/-- `normalizeMessageText` from chessterUtils.ts:
`text.replace(mention ++ " ", "").replace(mention, "")` where
`mention = "<@" ++ botUserId ++ ">"`; each JS `replace` with a string
pattern replaces only the first occurrence. -/
def normalizeMessageText (text botUserId : String) : String :=
  replaceFirst (replaceFirst text ("<@" ++ botUserId ++ "> ") "")
    ("<@" ++ botUserId ++ ">") ""

/-- The message-context record returned by `determineMessageContext`. -/
structure MessageContext where
  mtype : String
  isDirectMessage : Bool
  isDirectMention : Bool
  isAmbient : Bool
  isBotMessage : Bool
  deriving DecidableEq

/-- `determineMessageContext` from chessterUtils.ts.  The channel flags are
read through `?? false`, so missing flags are already collapsed into the
`Bool` fields of `SlackChannel`. -/
def determineMessageContext (channel : SlackChannel) (isDirectMention : Bool) :
    MessageContext :=
  let isDirectMessage := channel.is_im && !channel.is_group
  let isAmbient := !(isDirectMention || isDirectMessage)
  { mtype := if isDirectMention then "mention"
             else if isDirectMessage then "DM" else "ambient"
    isDirectMessage := isDirectMessage
    isDirectMention := isDirectMention
    isAmbient := isAmbient
    isBotMessage := false }

/-- Number of category flags set in a context (used to state the
mutual-exclusion claim). -/
def MessageContext.trueFlagCount (c : MessageContext) : Nat :=
  (if c.isDirectMessage then 1 else 0) + (if c.isDirectMention then 1 else 0) +
    (if c.isAmbient then 1 else 0) + (if c.isBotMessage then 1 else 0)

/-- A listener registration (`SlackEventListenerOptions` in chessterUtils).
The callback sends replies through `say` and may throw; it is modelled as a
function returning the replies it sent plus its outcome.  Middleware in
this module are pure message transforms. -/
structure Listener where
  patterns : List Pattern
  messageTypes : List HearsEventType
  middleware : Option (List (CommandMessage → CommandMessage)) := none
  callback : CommandMessage → List String × Except ChessterError Unit

/-- `doesListenerWantMessageType` from chessterUtils.ts. -/
def doesListenerWantMessageType (listener : Listener) (ctx : MessageContext) :
    Bool :=
  (ctx.isDirectMessage && listener.messageTypes.contains .direct_message) ||
  (ctx.isDirectMention && listener.messageTypes.contains .direct_mention) ||
  (ctx.isAmbient && listener.messageTypes.contains .ambient) ||
  (ctx.isBotMessage && listener.messageTypes.contains .bot_message)

/-- The inner pattern loop of `findMatchingListener`: first pattern in
declaration order whose match succeeds. -/
def firstPatternMatch (patterns : List Pattern) (text : String) :
    Option (List String) :=
  match patterns with
  | [] => none
  | p :: ps =>
    match p text with
    | some m => some m
    | none => firstPatternMatch ps text

/-- `findMatchingListener` from chessterUtils.ts: scan listeners in
registration order, skip those that do not want this message type, and
return the first listener together with the matches of its first matching
pattern. -/
def findMatchingListener (listeners : List Listener) (text : String)
    (ctx : MessageContext) : Option (Listener × List String) :=
  match listeners with
  | [] => none
  | l :: rest =>
    if doesListenerWantMessageType l ctx then
      match firstPatternMatch l.patterns text with
      | some m => some (l, m)
      | none => findMatchingListener rest text ctx
    else findMatchingListener rest text ctx

/-- The middleware loop of `applyMiddleware`: thread the message through
each transform left to right. -/
def runMiddlewareChain (middleware : List (CommandMessage → CommandMessage))
    (message : CommandMessage) : CommandMessage :=
  match middleware with
  | [] => message
  | f :: rest => runMiddlewareChain rest (f message)

/-- `applyMiddleware` from chessterUtils.ts: return the message unchanged
when no middleware list is supplied or it is empty, else run the chain. -/
def applyMiddleware (message : CommandMessage)
    (middleware : Option (List (CommandMessage → CommandMessage))) :
    CommandMessage :=
  match middleware with
  | none => message
  | some l => if l.isEmpty then message else runMiddlewareChain l message

-- ---------------------------------------------------------------------------
-- Association-list helpers modelling JS plain-object maps
-- (`obj[k] = v` overwrites; reading `obj[k]` yields the latest write).
-- ---------------------------------------------------------------------------

/-- Read a key from a JS-object map: the value of the first entry with this
key (maps built with `upsertA` keep keys unique). -/
def lookupA {α : Type} (m : List (String × α)) (k : String) : Option α :=
  match m with
  | [] => none
  | p :: rest => if p.1 = k then some p.2 else lookupA rest k

/-- Write a key into a JS-object map: overwrite the existing entry in place
or append a fresh one, preserving key insertion order. -/
def upsertA {α : Type} (m : List (String × α)) (k : String) (v : α) :
    List (String × α) :=
  if m.any (fun p => p.1 == k) then
    m.map (fun p => if p.1 = k then (k, v) else p)
  else m ++ [(k, v)]

/-- Read a key from a map built by plain repeated assignment into a list of
bindings: the latest binding wins. -/
def lookupLastA {α : Type} (m : List (String × α)) (k : String) : Option α :=
  lookupA m.reverse k

-- ---------------------------------------------------------------------------
-- SlackEntityLookup (Entity Index)
-- ---------------------------------------------------------------------------

/-- The two primary maps and the two duplicate-tracking maps of
`SlackEntityLookup` (the `slackName`/`typePostfix`/`idStringPrefix`
constructor arguments and the logger only feed log strings and are not
modelled). -/
structure SlackEntityLookup (α : Type) where
  byName : List (String × α) := []
  byId : List (String × α) := []
  nameDuplicates : List (String × List α) := []
  idDuplicates : List (String × List α) := []

/-- `SlackEntityLookup._addByIdWithDuplicate`: push onto the duplicates
list when the id is already in the primary map, else start a fresh
singleton list; the primary map always takes the new entity.  (When
`byId[id]` is defined the source pushes onto `idDuplicates[id]` directly;
the `getD []` models that list, which is always present in that branch.) -/
def addByIdWithDuplicate {α : Type} (st : SlackEntityLookup α) (id : String)
    (entity : α) : SlackEntityLookup α :=
  if (lookupA st.byId id).isSome then
    { st with
      idDuplicates :=
        upsertA st.idDuplicates id
          (((lookupA st.idDuplicates id).getD []) ++ [entity])
      byId := upsertA st.byId id entity }
  else
    { st with
      idDuplicates := upsertA st.idDuplicates id [entity]
      byId := upsertA st.byId id entity }

/-- `SlackEntityLookup.getIdDuplicates`: uppercase the query and return the
tracked list, or the empty list when the key is absent. -/
def getIdDuplicates {α : Type} (st : SlackEntityLookup α) (id : String) :
    List α :=
  (lookupA st.idDuplicates (jsToUpper id)).getD []

/-- `SlackEntityLookup.getByNameOrID`: try the id map with the uppercased
key first, then the name map with the lowercased key (JS `a || b`). -/
def getByNameOrID {α : Type} (st : SlackEntityLookup α) (nameOrId : String) :
    Option α :=
  match lookupA st.byId (jsToUpper nameOrId) with
  | some e => some e
  | none => lookupA st.byName (jsToLower nameOrId)

/-- Fold a sequence of `_addByIdWithDuplicate` calls over the empty index
(the add history the duplicate-tracking invariant quantifies over). -/
def addAllById {α : Type} (adds : List (String × α)) : SlackEntityLookup α :=
  adds.foldl (fun st p => addByIdWithDuplicate st p.1 p.2) {}

-- ---------------------------------------------------------------------------
-- Fuzzy matcher and league resolution
-- ---------------------------------------------------------------------------

/-- One fuzzy-match result: a candidate label and its score. -/
structure FuzzyResult where
  value : String
  score : Nat
  deriving DecidableEq

/-- Modelled from the spec: the `fuzzy_match` module is not under `src/`.
Per spec section 4.5, `rank(query, candidates)` scores free text against
each candidate label; the exact scoring algorithm is an implementation
choice, so it is a parameter `score` of the bot model. -/
def rankChoices (score : String → String → Nat) (query : String)
    (choices : List String) : List FuzzyResult :=
  choices.map (fun c => { value := c, score := score query c })

/-- Modelled from the spec: the `fuzzy_match` module is not under `src/`.
Per spec section 4.5, `bestMatches(results)` is the subset of results whose
score equals the maximum score observed; ties are all retained. -/
def findBestMatches (results : List FuzzyResult) : List FuzzyResult :=
  let maxScore := (results.map (fun r => r.score)).foldl max 0
  results.filter (fun r => r.score == maxScore)

/-- The bot state read by league resolution and dispatch: the
channel-to-league binding map and moderator-ping lists from configuration,
the configured leagues (`league.getAllLeagues`), the user Entity Index, and
the fuzzy scoring function (spec section 4.5 leaves the algorithm open). -/
structure Bot where
  channelMap : List (String × String) := []
  pingMods : List (String × List String) := []
  leagues : List League := []
  users : SlackEntityLookup LeagueMember := {}
  score : String → String → Nat

/-- Modelled from the spec: the `league` module is not under `src/`.
`league.getLeague(bot, name)` returns the configured league with that name,
or nothing when the name is absent or no league carries it. -/
def lookupLeague (leagues : List League) (name : Option String) :
    Option League :=
  match name with
  | none => none
  | some n => leagues.find? (fun l => l.name == n)

/-- The `(target, league)` pairs built by `findLeagueByMessageText`:
each league contributes its name and then each `alsoKnownAs` alias, in
league order. -/
def leagueTargets (leagues : List League) : List (String × League) :=
  leagues.flatMap (fun l => (l.name, l) :: l.alsoKnownAs.map (fun a => (a, l)))

/-- The distinct-league record built by `findLeagueByMessageText`:
tokenize the text on single spaces, rank every lowercased token against all
targets, keep the best matches over the flattened results, map each best
match back to its league through `targetToLeague` (latest binding wins) and
key the record by league name (insertion order, value overwritten). -/
def possibleLeaguesOf (bot : Bot) (text : String) : List (String × League) :=
  let targets := leagueTargets bot.leagues
  let args := jsSplitSpace text
  let matchRanks := args.map (fun arg =>
    rankChoices bot.score (jsToLower arg) (targets.map (fun p => p.1)))
  let bestMatches := findBestMatches matchRanks.flatten
  bestMatches.foldl (fun acc r =>
    match lookupLastA targets r.value with
    | some l => upsertA acc l.name l
    | none => acc) []

/-- `findLeagueByMessageText`: more than one distinct matched league throws
`StopControllerError("Ambiguous leagues.")`; exactly one returns it; none
returns null. -/
def findLeagueByMessageText (bot : Bot) (message : CommandMessage) :
    Except ChessterError (Option League) :=
  let possible := possibleLeaguesOf bot message.text
  if 1 < possible.length then
    .error (.stopController "Ambiguous leagues.")
  else
    match possible.head? with
    | some p => .ok (some p.2)
    | none => .ok none

/-- Tier 1 of `getLeague`: when the channel has a (JS-truthy) display name,
look the name up in `channelMap` and resolve the bound league name. -/
def nameBinding (bot : Bot) (channel : SlackChannel) : Option League :=
  if channel.name ≠ "" then
    lookupLeague bot.leagues (lookupA bot.channelMap channel.name)
  else none

/-- Tier 2 of `getLeague`: when the channel has a (JS-truthy) id and the id
is bound in `channelMap`, resolve the bound league name. -/
def idBinding (bot : Bot) (channel : SlackChannel) : Option League :=
  if channel.id ≠ "" then
    match lookupA bot.channelMap channel.id with
    | some target => lookupLeague bot.leagues (some target)
    | none => none
  else none

/-- `getLeague` from the Slack-bot module: channel-name binding first, then
channel-id binding, then (only when `channelOnly` is false) free-text fuzzy
resolution, each tier short-circuiting on success.  The source also mutates
`message.league`; callers of this model update the field from the result. -/
def getLeague (bot : Bot) (message : CommandMessage) (channelOnly : Bool) :
    Except ChessterError (Option League) :=
  match nameBinding bot message.channel with
  | some l => .ok (some l)
  | none =>
    match idBinding bot message.channel with
    | some l => .ok (some l)
    | none =>
      if !channelOnly then findLeagueByMessageText bot message
      else .ok none

-- ---------------------------------------------------------------------------
-- Middleware of the Slack-bot module
-- ---------------------------------------------------------------------------

/-- A Slack-bot middleware (`MiddlewareFn`): sends replies and either
returns a message or throws. -/
def BotMiddlewareFn : Type :=
  CommandMessage → List String × Except ChessterError CommandMessage

/-- The denial reply `requiresModerator` sends. -/
def notModeratorReply (leagueName : String) : String :=
  "You are not a moderator of the " ++ leagueName ++
    " league. Your temerity has been logged."

/-- `requiresModerator` from the Slack-bot module: an undefined league is a
programming `Error` (the source's second guard, `if (!message.league)`, is
unreachable for a defined league object and is subsumed here); a defined
league with a non-moderator sender replies once and throws
`StopControllerError`; a moderator passes the message through. -/
def requiresModerator (message : CommandMessage) :
    List String × Except ChessterError CommandMessage :=
  match message.league with
  | none =>
    ([], .error (.genericError "requiresModerator MUST be called after withLeague."))
  | some l =>
    if !message.isModerator then
      ([notModeratorReply l.name], .error (.stopController "Not a moderator."))
    else ([], .ok message)

-- ---------------------------------------------------------------------------
-- SlackBot.handleMatch (Dispatch Controller)
-- ---------------------------------------------------------------------------

/-- The two listener kinds of `SlackRTMEventListenerOptions`. -/
inductive ListenerType where
  | command
  | league_command
  deriving DecidableEq

/-- A Slack-bot listener as consumed by `handleMatch` (its `patterns` are
only interpolated into log strings there and are not modelled). -/
structure BotListener where
  ltype : ListenerType
  middleware : Option (List BotMiddlewareFn) := none
  callback : CommandMessage → List String × Except ChessterError Unit

/-- The observable outcome of one `handleMatch` run: the replies sent (in
order), whether the callback was invoked, whether the
"Cannot execute league command - missing league or member" warning was
logged, and whether the inner catch block fired (logging the error). -/
structure DispatchResult where
  replies : List String
  callbackInvoked : Bool
  warnLogged : Bool
  errorCaughtLogged : Bool
  deriving DecidableEq

/-- The dispatch outcome when nothing at all ran. -/
def emptyDispatch : DispatchResult :=
  { replies := [], callbackInvoked := false, warnLogged := false
    errorCaughtLogged := false }

/-- The `listener.middleware.forEach((m) => m(this, msg))` loop of
`handleMatch`: every middleware receives the same message (transform
results are discarded); the first thrown error stops the loop. -/
def runBotMiddleware (middleware : List BotMiddlewareFn)
    (message : CommandMessage) : List String × Option ChessterError :=
  match middleware with
  | [] => ([], none)
  | m :: rest =>
    match m message with
    | (rs, .ok _) =>
      let (rs2, e) := runBotMiddleware rest message
      (rs ++ rs2, e)
    | (rs, .error e) => (rs, some e)

/-- The member resolution at the top of `handleMatch`: look the sender up
in the user Entity Index when the user id is JS-truthy. -/
def resolvedMember (bot : Bot) (message : CommandMessage) :
    Option LeagueMember :=
  if message.user ≠ "" then getByNameOrID bot.users message.user else none

/-- The `isPingModerator` computation of `handleMatch`: the channel id is a
key of `config.pingMods`, a member resolved, and the member id is in the
channel's ping list. -/
def pingFlag (bot : Bot) (channelId : String)
    (member : Option LeagueMember) : Bool :=
  match lookupA bot.pingMods channelId, member with
  | some mods, some m => mods.contains m.id
  | _, _ => false

/-- The message as it stands after league gating inside `handleMatch`:
`message.league` set by `getLeague` and `message.isPingModerator`
computed. -/
def gatedMessage (bot : Bot) (message : CommandMessage)
    (resolvedLeague : Option League) : CommandMessage :=
  { message with
    league := resolvedLeague
    isPingModerator := pingFlag bot message.channel.id (resolvedMember bot message) }

/-- The `{ member, ...message }` object passed to middleware and callback
in the plain-command branch of `handleMatch` (its call sites build the
message without a `member` property, so the spread resolves to the
computed member). -/
def commandObj (bot : Bot) (message : CommandMessage)
    (resolvedLeague : Option League) : CommandMessage :=
  { gatedMessage bot message resolvedLeague with
    member := resolvedMember bot message }

/-- The `LeagueCommandMessage` built in the league-command branch of
`handleMatch` once both the league and the member resolved: the gated
message with the resolved league and member and the computed moderator
flag. -/
def leagueCommandObj (bot : Bot) (message : CommandMessage) (lg : League)
    (mem : LeagueMember) : CommandMessage :=
  { gatedMessage bot message (some lg) with
    league := some lg
    member := some mem
    isModerator := lg.isModeratorOf mem.lichess_username }

/-- `SlackBot.handleMatch`.  The result pairs the observable dispatch
outcome with the exception that escaped the function, if any: `getLeague`
runs *before* the try/catch, so a `StopControllerError` raised by ambiguous
fuzzy resolution leaves `handleMatch` as a rejected promise with nothing
sent or logged.  The `match resolvedLeague, member` arm reproduces the
source's inner `if (_league && member)` check; its `warnLogged` arm is
unreachable because the branch is only entered when `allowedTypes` kept
`league_command`, which requires both to be defined. -/
def handleMatch (bot : Bot) (listener : BotListener)
    (message : CommandMessage) : DispatchResult × Option ChessterError :=
  let member := resolvedMember bot message
  match getLeague bot { message with league := none } false with
  | .error e => (emptyDispatch, some e)
  | .ok resolvedLeague =>
    let gated := gatedMessage bot message resolvedLeague
    let leagueAllowed := resolvedLeague.isSome && member.isSome
    match listener.ltype with
    | .command =>
      let mObj := { gated with member := member }
      match runBotMiddleware (listener.middleware.getD []) mObj with
      | (rs, some _) =>
        ({ replies := rs, callbackInvoked := false, warnLogged := false
           errorCaughtLogged := true }, none)
      | (rs, none) =>
        match listener.callback mObj with
        | (rs2, .ok _) =>
          ({ replies := rs ++ rs2, callbackInvoked := true
             warnLogged := false, errorCaughtLogged := false }, none)
        | (rs2, .error _) =>
          ({ replies := rs ++ rs2, callbackInvoked := true
             warnLogged := false, errorCaughtLogged := true }, none)
    | .league_command =>
      if leagueAllowed then
        match resolvedLeague, member with
        | some lg, some mem =>
          match runBotMiddleware (listener.middleware.getD []) gated with
          | (rs, some _) =>
            ({ replies := rs, callbackInvoked := false, warnLogged := false
               errorCaughtLogged := true }, none)
          | (rs, none) =>
            let leagueCommandMessage := leagueCommandObj bot message lg mem
            match listener.callback leagueCommandMessage with
            | (rs2, .ok _) =>
              ({ replies := rs ++ rs2, callbackInvoked := true
                 warnLogged := false, errorCaughtLogged := false }, none)
            | (rs2, .error _) =>
              ({ replies := rs ++ rs2, callbackInvoked := true
                 warnLogged := false, errorCaughtLogged := true }, none)
        | _, _ =>
          ({ replies := [], callbackInvoked := false, warnLogged := true
             errorCaughtLogged := false }, none)
      else
        ({ replies := [], callbackInvoked := false, warnLogged := false
           errorCaughtLogged := false }, none)

-- ---------------------------------------------------------------------------
-- processChessterMessage (Events-API dispatch boundary)
-- ---------------------------------------------------------------------------

/-- The apology `processChessterMessage` sends from its catch block. -/
def processErrorReply : String :=
  "Error processing message. Its probably MrScribbles' fault. :sexy-glbert:"

/-- The text normalization step at the top of `processChessterMessage`:
strip the bot mention only for a direct mention with a (JS-truthy) bot user
id. -/
def normalizedTextOf (text : String) (botUserId : Option String)
    (isDirectMention : Bool) : String :=
  match botUserId with
  | some b =>
    if isDirectMention && b ≠ "" then normalizeMessageText text b else text
  | none => text

/-- The message handed to the matched listener's callback by
`processChessterMessage`: the built command message (trimmed text, the
pattern's matches) after the listener's middleware. -/
def processedMessageOf (text user : String) (channel : SlackChannel)
    (ts : String) (botUserId : Option String) (isDirectMention : Bool)
    (listener : Listener) (ms : List String) : CommandMessage :=
  applyMiddleware
    { user := user, channel := channel
      text := (normalizedTextOf text botUserId isDirectMention).trim
      ts := ts, matchesList := ms, isPingModerator := false }
    listener.middleware

/-- `processChessterMessage` from chessterUtils.ts: normalize the text when
this is a direct mention with a known (JS-truthy) bot user id, build the
message, classify it, find the first matching listener, apply its
middleware and run its callback; a thrown error is caught, logged, and
answered with the generic apology.  Returns the replies sent through `say`
in order, paired with whether the catch block fired. -/
def processChessterMessage (text user : String) (channel : SlackChannel)
    (ts : String) (botUserId : Option String) (isDirectMention : Bool)
    (listeners : List Listener) : List String × Bool :=
  let normalizedText := normalizedTextOf text botUserId isDirectMention
  let messageContext := determineMessageContext channel isDirectMention
  match findMatchingListener listeners normalizedText messageContext with
  | none => ([], false)
  | some (listener, ms) =>
    match listener.callback
        (processedMessageOf text user channel ts botUserId isDirectMention
          listener ms) with
    | (rs, .ok _) => (rs, false)
    | (rs, .error _) => (rs ++ [processErrorReply], true)

-- ---------------------------------------------------------------------------
-- Theorems
-- ---------------------------------------------------------------------------

lemma runMiddlewareChain_eq_foldl
    (l : List (CommandMessage → CommandMessage)) (message : CommandMessage) :
    runMiddlewareChain l message = l.foldl (fun m f => f m) message := by
  induction l generalizing message with
  | nil => rfl
  | cons f rest ih => simp [runMiddlewareChain, List.foldl_cons, ih]

/-- Claim C10: `applyMiddleware` is the identity on messages when no
middleware is supplied (`undefined` or the empty list), and for any
middleware list the result is the left-to-right fold of the transforms over
the message. -/
theorem applyMiddleware_identity_and_fold (message : CommandMessage) :
    applyMiddleware message none = message ∧
    applyMiddleware message (some []) = message ∧
    ∀ fs : List (CommandMessage → CommandMessage),
      applyMiddleware message (some fs) = fs.foldl (fun m f => f m) message := by
  refine ⟨rfl, rfl, fun fs => ?_⟩
  cases fs with
  | nil => rfl
  | cons f rest =>
    simp [applyMiddleware, List.isEmpty, runMiddlewareChain_eq_foldl]

/-- Claim C2 (counterexample): for a direct mention inside an IM channel
(`is_im = true`, `is_group = false`, mention flag set),
`determineMessageContext` sets *both* `isDirectMention` and
`isDirectMessage`, so two of the four category flags are true — refuting
the claim that exactly one flag is true for every flag combination and in
particular that a direct mention never has `isDirectMessage` set. -/
theorem determineMessageContext_mention_in_IM_counterexample :
    (determineMessageContext ⟨"D1", "", true, false⟩ true).isDirectMention = true ∧
    (determineMessageContext ⟨"D1", "", true, false⟩ true).isDirectMessage = true ∧
    (determineMessageContext ⟨"D1", "", true, false⟩ true).trueFlagCount = 2 := by
  refine ⟨rfl, rfl, rfl⟩

/-- Claim C2 (amended): `determineMessageContext` sets exactly one of the
four category flags for every combination of channel flags and mention
flag *except* a mention in an IM channel (`is_im ∧ ¬is_group ∧ mention`),
where both `isDirectMessage` and `isDirectMention` are true (two flags set);
`isBotMessage` is always false. -/
theorem determineMessageContext_flag_count (channel : SlackChannel)
    (mention : Bool) :
    (determineMessageContext channel mention).trueFlagCount =
      (if mention && channel.is_im && !channel.is_group then 2 else 1) ∧
    (determineMessageContext channel mention).isBotMessage = false := by
  obtain ⟨id, name, im, grp⟩ := channel
  cases im <;> cases grp <;> cases mention <;>
    simp [determineMessageContext, MessageContext.trueFlagCount]

/-- The context whose single category flag corresponds to a listener
category (the shape `determineMessageContext` produces away from the
mention-in-IM corner). -/
def categoryContext (cat : HearsEventType) : MessageContext :=
  { mtype := ""
    isDirectMessage := cat = .direct_message
    isDirectMention := cat = .direct_mention
    isAmbient := cat = .ambient
    isBotMessage := cat = .bot_message }

/-- Specification-side matcher, following the spec's words: the first
listener in registration order whose accepted categories contain the
context's category and that has some matching pattern, paired with the
match of its first matching pattern; none otherwise. -/
def findMatchSpec (listeners : List Listener) (text : String)
    (cat : HearsEventType) : Option (Listener × List String) :=
  match listeners.find? (fun l =>
      l.messageTypes.contains cat && l.patterns.any (fun p => (p text).isSome)) with
  | none => none
  | some l => (firstPatternMatch l.patterns text).map (fun m => (l, m))

lemma doesListenerWantMessageType_categoryContext (l : Listener)
    (cat : HearsEventType) :
    doesListenerWantMessageType l (categoryContext cat) =
      l.messageTypes.contains cat := by
  cases cat <;> simp [doesListenerWantMessageType, categoryContext]

lemma firstPatternMatch_isSome (patterns : List Pattern) (text : String) :
    (firstPatternMatch patterns text).isSome =
      patterns.any (fun p => (p text).isSome) := by
  induction patterns with
  | nil => rfl
  | cons p ps ih =>
    cases h : p text <;> simp [firstPatternMatch, h, ih]

/-- Claim C1: for every listener list, text and message category,
`findMatchingListener` returns exactly what the spec describes: the match
produced by the first listener in registration order whose accepted message
types include the context's category and whose first matching pattern (in
declaration order) succeeds, together with that pattern's captured groups;
if no listener/pattern pair matches it returns none, which is not an
error. -/
theorem findMatchingListener_first_match (listeners : List Listener)
    (text : String) (cat : HearsEventType) :
    findMatchingListener listeners text (categoryContext cat) =
      findMatchSpec listeners text cat := by
  induction listeners with
  | nil => rfl
  | cons l rest ih =>
    by_cases hw : l.messageTypes.contains cat = true
    · cases hm : firstPatternMatch l.patterns text with
      | some m =>
        have hany : l.patterns.any (fun p => (p text).isSome) = true := by
          rw [← firstPatternMatch_isSome, hm]; rfl
        simp [findMatchingListener, doesListenerWantMessageType_categoryContext,
          hw, hm, findMatchSpec, List.find?_cons, hany]
      | none =>
        have hany : l.patterns.any (fun p => (p text).isSome) = false := by
          rw [← firstPatternMatch_isSome, hm]; rfl
        simp [findMatchingListener, doesListenerWantMessageType_categoryContext,
          hw, hm, findMatchSpec, List.find?_cons, hany] at ih ⊢
        exact ih
    · have hw' : l.messageTypes.contains cat = false := by
        simpa using hw
      simp [findMatchingListener, doesListenerWantMessageType_categoryContext,
        hw', findMatchSpec, List.find?_cons] at ih ⊢
      exact ih

lemma replaceFirstL_of_not_occurs {s pat : List Char} (repl : List Char)
    (h : occursL pat s = false) : replaceFirstL s pat repl = s := by
  induction s with
  | nil =>
    have h' : pat ≠ [] := by
      simp only [occursL] at h
      simpa using h
    simp [replaceFirstL]
    intro hp
    exact absurd hp h'
  | cons c rest ih =>
    simp only [occursL, Bool.or_eq_false_iff] at h
    simp [replaceFirstL, h.1, ih h.2]

lemma replaceFirstL_length_le (s pat : List Char) :
    (replaceFirstL s pat []).length ≤ s.length := by
  induction s with
  | nil => simp [replaceFirstL]
  | cons c rest ih =>
    by_cases hp : pat.isPrefixOf (c :: rest) = true
    · simp only [replaceFirstL, hp, if_true, List.nil_append, List.length_drop,
        List.length_cons]
      omega
    · have hp' : pat.isPrefixOf (c :: rest) = false := by
        revert hp
        cases pat.isPrefixOf (c :: rest) <;> simp
      simp only [replaceFirstL, hp', Bool.false_eq_true, if_false,
        List.length_cons]
      omega

lemma replaceFirstL_length_lt {s pat : List Char} (hpat : pat ≠ [])
    (h : occursL pat s = true) : (replaceFirstL s pat []).length < s.length := by
  induction s with
  | nil =>
    simp only [occursL, List.isEmpty_iff] at h
    exact absurd h hpat
  | cons c rest ih =>
    by_cases hp : pat.isPrefixOf (c :: rest) = true
    · have hplen : 0 < pat.length := List.length_pos.mpr hpat
      simp [replaceFirstL, hp]
      omega
    · simp only [occursL, Bool.or_eq_true] at h
      rcases h with h | h
      · exact absurd h hp
      · simp [replaceFirstL, hp]
        exact ih h

lemma occursL_of_occursL_append {p q s : List Char}
    (h : occursL (p ++ q) s = true) : occursL p s = true := by
  induction s with
  | nil =>
    simp only [occursL, List.isEmpty_iff, List.append_eq_nil] at h ⊢
    exact h.1
  | cons c rest ih =>
    simp only [occursL, Bool.or_eq_true] at h ⊢
    rcases h with h | h
    · left
      exact List.isPrefixOf_iff_prefix.mpr
        ((List.prefix_append p q).trans (List.isPrefixOf_iff_prefix.mp h))
    · right
      exact ih h

lemma data_mention_space (B : String) :
    ("<@" ++ B ++ "> ").data = ("<@" ++ B ++ ">").data ++ [' '] := by
  simp [String.data_append]

lemma mention_data_ne_nil (B : String) : ("<@" ++ B ++ ">").data ≠ [] := by
  simp [String.data_append]

/-- A normalization pass is the identity exactly when the text contains no
occurrence of the bot-mention token. -/
lemma normalize_fixed_iff (s B : String) :
    normalizeMessageText s B = s ↔ occurs ("<@" ++ B ++ ">") s = false := by
  constructor
  · intro h
    by_contra hocc
    have hocc' : occursL ("<@" ++ B ++ ">").data s.data = true := by
      revert hocc
      unfold occurs
      cases occursL ("<@" ++ B ++ ">").data s.data <;> simp
    have hlen :
        (replaceFirstL (replaceFirstL s.data ("<@" ++ B ++ "> ").data [])
            ("<@" ++ B ++ ">").data []).length < s.data.length := by
      by_cases h1 : occursL ("<@" ++ B ++ "> ").data s.data = true
      · have hlt := replaceFirstL_length_lt
          (by rw [data_mention_space]; simp) h1
        calc (replaceFirstL (replaceFirstL s.data ("<@" ++ B ++ "> ").data [])
                ("<@" ++ B ++ ">").data []).length
            ≤ (replaceFirstL s.data ("<@" ++ B ++ "> ").data []).length :=
              replaceFirstL_length_le _ _
          _ < s.data.length := hlt
      · have h1' : occursL ("<@" ++ B ++ "> ").data s.data = false := by
          revert h1
          cases occursL ("<@" ++ B ++ "> ").data s.data <;> simp
        rw [replaceFirstL_of_not_occurs _ h1']
        exact replaceFirstL_length_lt (mention_data_ne_nil B) hocc'
    have hdata : (normalizeMessageText s B).data = s.data := by
      rw [h]
    unfold normalizeMessageText replaceFirst at hdata
    simp only [String.data] at hdata
    rw [hdata] at hlen
    omega
  · intro h
    have h1 : occursL ("<@" ++ B ++ "> ").data s.data = false := by
      by_contra h1
      have h1' : occursL ("<@" ++ B ++ "> ").data s.data = true := by
        revert h1
        cases occursL ("<@" ++ B ++ "> ").data s.data <;> simp
      rw [data_mention_space] at h1'
      have := occursL_of_occursL_append h1'
      unfold occurs at h
      rw [this] at h
      exact Bool.noConfusion h
    unfold normalizeMessageText replaceFirst
    rw [replaceFirstL_of_not_occurs _ h1]
    unfold occurs at h
    rw [replaceFirstL_of_not_occurs _ h]

/-- Claim C9 (counterexample): with bot id `U99` and text `<@U99><@U99>`,
one normalization pass removes only the first mention token, leaving
`<@U99>`, and a second pass removes the second one, so normalize applied
twice differs from normalize applied once — refuting idempotence. -/
theorem normalize_not_idempotent_counterexample :
    normalizeMessageText "<@U99><@U99>" "U99" = "<@U99>" ∧
    normalizeMessageText (normalizeMessageText "<@U99><@U99>" "U99") "U99" = "" ∧
    normalizeMessageText (normalizeMessageText "<@U99><@U99>" "U99") "U99" ≠
      normalizeMessageText "<@U99><@U99>" "U99" := by
  refine ⟨by decide, by decide, by decide⟩

/-- Claim C9 (amended): `normalizeMessageText` is not idempotent in
general, because each JS `replace` strips only the first occurrence of the
mention token; a second application is the identity precisely when the
once-normalized text no longer contains the token `<@botId>`. -/
theorem normalizeMessageText_idempotent_iff (t B : String) :
    normalizeMessageText (normalizeMessageText t B) B =
        normalizeMessageText t B ↔
      occurs ("<@" ++ B ++ ">") (normalizeMessageText t B) = false :=
  normalize_fixed_iff (normalizeMessageText t B) B

lemma occursL_of_starts {p s : List Char} (h : p <+: s) : occursL p s = true := by
  cases s with
  | nil =>
    have : p = [] := List.prefix_nil.mp h
    simp [occursL, this]
  | cons c rest =>
    simp only [occursL, Bool.or_eq_true]
    exact Or.inl (List.isPrefixOf_iff_prefix.mpr h)

lemma occursL_append_right {p s : List Char} (a : List Char)
    (h : occursL p s = true) : occursL p (a ++ s) = true := by
  induction a with
  | nil => simpa using h
  | cons c a ih =>
    simp only [List.cons_append, occursL, Bool.or_eq_true]
    exact Or.inr ih

lemma occurs_notModeratorReply (n : String) :
    occurs n (notModeratorReply n) = true := by
  unfold occurs notModeratorReply
  rw [String.data_append, String.data_append, List.append_assoc]
  exact occursL_append_right _ (occursL_of_starts (List.prefix_append _ _))

/-- Claim C7: `requiresModerator` applied to a message with a resolved
league and a non-moderator sender sends exactly one denial reply containing
the league's name and throws `StopControllerError` (a normal abort, so in
the dispatch pipeline the callback is never invoked); applied before league
resolution it throws a plain `Error` (a programming error, not a normal
abort); applied to a moderator's message it returns the message unchanged
and sends no reply.  The last conjunct runs the middleware through
`handleMatch` to witness the abort: exactly one reply, callback not
invoked. -/
theorem requiresModerator_spec (msg : CommandMessage) :
    (∀ l, msg.league = some l → msg.isModerator = false →
      requiresModerator msg =
        ([notModeratorReply l.name],
          .error (.stopController "Not a moderator.")) ∧
      occurs l.name (notModeratorReply l.name) = true) ∧
    (msg.league = none →
      requiresModerator msg =
        ([], .error (.genericError
          "requiresModerator MUST be called after withLeague."))) ∧
    (∀ l, msg.league = some l → msg.isModerator = true →
      requiresModerator msg = ([], .ok msg)) ∧
    (∀ (bot : Bot)
        (cb : CommandMessage → List String × Except ChessterError Unit)
        (lg : League) (mem : LeagueMember),
      getLeague bot { msg with league := none } false = .ok (some lg) →
      resolvedMember bot msg = some mem →
      msg.isModerator = false →
      handleMatch bot
          { ltype := .league_command, middleware := some [requiresModerator]
            callback := cb } msg =
        ({ replies := [notModeratorReply lg.name], callbackInvoked := false
           warnLogged := false, errorCaughtLogged := true }, none)) := by
  refine ⟨?_, ?_, ?_, ?_⟩
  · intro l hl hm
    exact ⟨by simp [requiresModerator, hl, hm], occurs_notModeratorReply l.name⟩
  · intro hl
    simp [requiresModerator, hl]
  · intro l hl hm
    simp [requiresModerator, hl, hm]
  · intro bot cb lg mem hgl hmem hm
    simp only [handleMatch, hgl, hmem]
    simp [runBotMiddleware, requiresModerator, gatedMessage, hm]

/-- Claim C7 (witness): a concrete non-moderator message in the `45+45`
league is denied with exactly one reply naming the league, and the abort is
the `StopControllerError` kind. -/
theorem requiresModerator_spec_witness :
    requiresModerator
        { user := "U1", channel := ⟨"C1", "chan", false, false⟩
          text := "pairings", ts := "1", matchesList := []
          league := some ⟨"45+45", [], ["mod1"]⟩, isModerator := false } =
      ([notModeratorReply "45+45"],
        .error (.stopController "Not a moderator.")) ∧
    occurs "45+45" (notModeratorReply "45+45") = true := by
  exact (requiresModerator_spec _).1 ⟨"45+45", [], ["mod1"]⟩ rfl rfl

lemma upsertA_cons_self {α : Type} {p : String × α} {m : List (String × α)}
    {k : String} (v : α) (hp : p.1 = k) :
    upsertA (p :: m) k v =
      (k, v) :: m.map (fun q => if q.1 = k then (k, v) else q) := by
  simp [upsertA, List.any_cons, hp]

lemma upsertA_cons_ne {α : Type} {p : String × α} {m : List (String × α)}
    {k : String} (v : α) (hp : ¬p.1 = k) :
    upsertA (p :: m) k v = p :: upsertA m k v := by
  by_cases hm : m.any (fun q => q.1 == k) = true <;>
    simp [upsertA, List.any_cons, hp, hm]

lemma lookupA_upsertA_self {α : Type} (m : List (String × α)) (k : String)
    (v : α) : lookupA (upsertA m k v) k = some v := by
  induction m with
  | nil => simp [upsertA, lookupA]
  | cons p m ih =>
    by_cases hp : p.1 = k
    · rw [upsertA_cons_self v hp]
      simp [lookupA]
    · rw [upsertA_cons_ne v hp]
      simp only [lookupA, hp, if_false, ih]

lemma lookupA_map_replace {α : Type} (m : List (String × α)) (k k' : String)
    (v : α) (hne : k' ≠ k) :
    lookupA (m.map (fun q => if q.1 = k then (k, v) else q)) k' =
      lookupA m k' := by
  induction m with
  | nil => rfl
  | cons q m ih =>
    by_cases hq : q.1 = k
    · have hkk' : ¬k = k' := fun h => hne h.symm
      have hq' : ¬q.1 = k' := by rw [hq]; exact hkk'
      simp only [List.map_cons, hq, if_true, lookupA, hkk', hq', if_false, ih]
    · simp only [List.map_cons, hq, if_false, lookupA, ih]

lemma lookupA_upsertA_ne {α : Type} (m : List (String × α)) (k k' : String)
    (v : α) (hne : k' ≠ k) : lookupA (upsertA m k v) k' = lookupA m k' := by
  induction m with
  | nil =>
    have hkk' : ¬k = k' := fun h => hne h.symm
    simp [upsertA, lookupA, hkk']
  | cons p m ih =>
    by_cases hp : p.1 = k
    · rw [upsertA_cons_self v hp]
      have hkk' : ¬k = k' := fun h => hne h.symm
      have hp' : ¬p.1 = k' := by rw [hp]; exact hkk'
      simp only [lookupA, hkk', if_false, lookupA_map_replace m k k' v hne]
      rw [if_neg hp']
    · rw [upsertA_cons_ne v hp]
      simp only [lookupA, ih]

/-- The record history under one key: the entities added with exactly this
key, in insertion order. -/
def addsUnder {α : Type} (adds : List (String × α)) (k : String) : List α :=
  (adds.filter (fun p => p.1 == k)).map (fun p => p.2)

lemma addAllById_append_single {α : Type} (adds : List (String × α))
    (a : String × α) :
    addAllById (adds ++ [a]) =
      addByIdWithDuplicate (addAllById adds) a.1 a.2 := by
  simp [addAllById, List.foldl_append]

lemma addsUnder_append_self {α : Type} (adds : List (String × α))
    (a : String × α) :
    addsUnder (adds ++ [a]) a.1 = addsUnder adds a.1 ++ [a.2] := by
  simp [addsUnder, List.filter_append]

lemma addsUnder_append_ne {α : Type} (adds : List (String × α))
    (a : String × α) (k : String) (hk : ¬k = a.1) :
    addsUnder (adds ++ [a]) k = addsUnder adds k := by
  have ha : ¬a.1 = k := fun h => hk h.symm
  simp [addsUnder, List.filter_append, ha]

lemma addAllById_spec {α : Type} (adds : List (String × α)) :
    ∀ k : String,
      lookupA (addAllById adds).byId k = (addsUnder adds k).getLast? ∧
      lookupA (addAllById adds).idDuplicates k =
        (if (addsUnder adds k).isEmpty then none
         else some (addsUnder adds k)) := by
  induction adds using List.reverseRecOn with
  | nil => intro k; simp [addAllById, lookupA, addsUnder]
  | append_singleton as a ih =>
    intro k
    obtain ⟨ak, av⟩ := a
    rw [addAllById_append_single]
    have ihk := ih k
    have iha := ih ak
    by_cases hk : k = ak
    · subst hk
      rw [addsUnder_append_self]
      cases hby : lookupA (addAllById as).byId k with
      | some x =>
        have hne : addsUnder as k ≠ [] := by
          intro hnil
          rw [iha.1, hnil] at hby
          exact Option.noConfusion hby
        have hdup : lookupA (addAllById as).idDuplicates k =
            some (addsUnder as k) := by
          rw [iha.2, if_neg (by simpa [List.isEmpty_iff] using hne)]
        constructor
        · simp [addByIdWithDuplicate, hby, lookupA_upsertA_self]
        · simp [addByIdWithDuplicate, hby, hdup, lookupA_upsertA_self]
      | none =>
        have hnil : addsUnder as k = [] := by
          have h1 := iha.1
          rw [hby] at h1
          exact List.getLast?_eq_none_iff.mp h1.symm
        constructor
        · simp [addByIdWithDuplicate, hby, lookupA_upsertA_self, hnil]
        · simp [addByIdWithDuplicate, hby, lookupA_upsertA_self, hnil]
    · rw [addsUnder_append_ne as (ak, av) k hk]
      cases hby : lookupA (addAllById as).byId ak with
      | some x =>
        constructor
        · rw [← ihk.1]
          simp [addByIdWithDuplicate, hby, lookupA_upsertA_ne _ _ _ _ hk]
        · rw [← ihk.2]
          simp [addByIdWithDuplicate, hby, lookupA_upsertA_ne _ _ _ _ hk]
      | none =>
        constructor
        · rw [← ihk.1]
          simp [addByIdWithDuplicate, hby, lookupA_upsertA_ne _ _ _ _ hk]
        · rw [← ihk.2]
          simp [addByIdWithDuplicate, hby, lookupA_upsertA_ne _ _ _ _ hk]

/-- Claim C8 (counterexample): after a *single* add under key `U1`, the
duplicates map entry for `U1` is already non-empty (the source seeds it
with a singleton list on the first add), even though only one record was
registered under that key — refuting the claimed "non-empty iff two or
more records" invariant at this one-add history. -/
theorem duplicates_single_add_counterexample :
    getIdDuplicates
        (addAllById [("U1", (⟨"U1", "alice", "alich"⟩ : LeagueMember))])
        "U1" =
      [⟨"U1", "alice", "alich"⟩] ∧
    ¬(getIdDuplicates
          (addAllById [("U1", (⟨"U1", "alice", "alich"⟩ : LeagueMember))])
          "U1" ≠ [] ↔
        2 ≤ (addsUnder [("U1", (⟨"U1", "alice", "alich"⟩ : LeagueMember))]
              "U1").length) := by
  constructor
  · rfl
  · decide

/-- Claim C8 (amended): after any sequence of id-adds, the duplicates map
entry for a key holds *all* records registered under that key in insertion
order — so it is non-empty iff at least one (not two or more) record was
registered — and the primary map entry is always the most-recently-added
record for that key. -/
theorem entityIndex_duplicates_spec {α : Type} (adds : List (String × α))
    (k : String) (hk : jsToUpper k = k) :
    getIdDuplicates (addAllById adds) k = addsUnder adds k ∧
    lookupA (addAllById adds).byId k = (addsUnder adds k).getLast? ∧
    (getIdDuplicates (addAllById adds) k ≠ [] ↔ addsUnder adds k ≠ []) := by
  have h := addAllById_spec adds k
  have hdup : getIdDuplicates (addAllById adds) k = addsUnder adds k := by
    unfold getIdDuplicates
    rw [hk, h.2]
    by_cases hempty : addsUnder adds k = []
    · simp [hempty]
    · rw [if_neg (by simpa [List.isEmpty_iff] using hempty)]
      rfl
  exact ⟨hdup, h.1, by rw [hdup]⟩

/-- Claim C8 (witness): adding records with id `U1` twice leaves the primary
map holding the second record while the duplicates list holds both in
insertion order, length 2; the iff instantiates with both sides true. -/
theorem entityIndex_duplicates_spec_witness :
    getIdDuplicates
        (addAllById [("U1", (⟨"U1", "alice", "alich"⟩ : LeagueMember)),
          ("U1", (⟨"U1", "bob", "blich"⟩ : LeagueMember))]) "U1" =
      [⟨"U1", "alice", "alich"⟩, ⟨"U1", "bob", "blich"⟩] ∧
    lookupA
        (addAllById [("U1", (⟨"U1", "alice", "alich"⟩ : LeagueMember)),
          ("U1", (⟨"U1", "bob", "blich"⟩ : LeagueMember))]).byId "U1" =
      some ⟨"U1", "bob", "blich"⟩ := by
  have h := entityIndex_duplicates_spec
    [("U1", (⟨"U1", "alice", "alich"⟩ : LeagueMember)),
      ("U1", (⟨"U1", "bob", "blich"⟩ : LeagueMember))] "U1" (by decide)
  exact ⟨h.1.trans (by decide), h.2.1.trans (by decide)⟩

/-- Claim C3: league resolution is a three-tier short-circuiting fallback:
a channel-name binding to an existing league always wins; otherwise a
channel-id binding to an existing league wins — regardless of the
`channelOnly` flag and of the message text, so an id binding always beats
free-text fuzzy resolution; only when both bindings fail is fuzzy text
resolution attempted, and only when `channelOnly` permits it (otherwise the
result is none). -/
theorem getLeague_tier_priority (bot : Bot) (msg : CommandMessage) :
    (∀ l, nameBinding bot msg.channel = some l →
      ∀ channelOnly, getLeague bot msg channelOnly = .ok (some l)) ∧
    (nameBinding bot msg.channel = none →
      ∀ l, idBinding bot msg.channel = some l →
        ∀ channelOnly, getLeague bot msg channelOnly = .ok (some l)) ∧
    (nameBinding bot msg.channel = none → idBinding bot msg.channel = none →
      getLeague bot msg true = .ok none ∧
      getLeague bot msg false = findLeagueByMessageText bot msg) := by
  refine ⟨?_, ?_, ?_⟩
  · intro l hl channelOnly
    simp [getLeague, hl]
  · intro hn l hi channelOnly
    simp [getLeague, hn, hi]
  · intro hn hi
    exact ⟨by simp [getLeague, hn, hi], by simp [getLeague, hn, hi]⟩

/-- A bot whose channel-id binding and fuzzy text resolution disagree, used
to witness the tier priority. -/
def tierBot : Bot :=
  { channelMap := [("C1", "45+45")]
    leagues := [⟨"45+45", ["45"], []⟩, ⟨"lonewolf", ["lw"], []⟩]
    score := fun q c => if q = c then 2 else 0 }

/-- A message in the id-bound channel whose text names a different
league. -/
def tierMsg : CommandMessage :=
  { user := "U1", channel := ⟨"C1", "", false, false⟩
    text := "lonewolf", ts := "1", matchesList := [] }

/-- Claim C3 (witness): with the channel id bound to `45+45` and the text
`lonewolf` (which fuzzy resolution alone would resolve to the `lonewolf`
league), `getLeague` returns the id-bound `45+45` league — the id binding
wins regardless of message text. -/
theorem getLeague_tier_priority_witness :
    getLeague tierBot tierMsg false = .ok (some ⟨"45+45", ["45"], []⟩) ∧
    findLeagueByMessageText tierBot tierMsg =
      .ok (some ⟨"lonewolf", ["lw"], []⟩) := by
  constructor
  · exact (getLeague_tier_priority tierBot tierMsg).2.1 rfl
      ⟨"45+45", ["45"], []⟩ (by decide) false
  · rfl

/-- Claim C4 (amended): when the channel bindings fail, fuzzy text
resolution reducing to two or more distinct leagues makes
`findLeagueByMessageText` (and so `getLeague`) fail with the distinct
`StopControllerError "Ambiguous leagues."` — not the none outcome and not a
silent pick — but *no* user-facing disambiguation reply is produced: the
error is raised before `handleMatch`'s try/catch, so it escapes the
dispatch with nothing sent; exactly one reduced league is returned, and an
empty reduction returns none. -/
theorem findLeague_ambiguity (bot : Bot) (msg : CommandMessage)
    (listener : BotListener)
    (hname : nameBinding bot msg.channel = none)
    (hid : idBinding bot msg.channel = none) :
    (1 < (possibleLeaguesOf bot msg.text).length →
      findLeagueByMessageText bot msg =
        .error (.stopController "Ambiguous leagues.") ∧
      getLeague bot msg false =
        .error (.stopController "Ambiguous leagues.") ∧
      handleMatch bot listener msg =
        (emptyDispatch, some (.stopController "Ambiguous leagues."))) ∧
    (∀ p, possibleLeaguesOf bot msg.text = [p] →
      findLeagueByMessageText bot msg = .ok (some p.2)) ∧
    (possibleLeaguesOf bot msg.text = [] →
      findLeagueByMessageText bot msg = .ok none) := by
  refine ⟨?_, ?_, ?_⟩
  · intro h2
    have hfl : findLeagueByMessageText bot msg =
        .error (.stopController "Ambiguous leagues.") := by
      unfold findLeagueByMessageText
      rw [if_pos h2]
    have hfl' : findLeagueByMessageText bot { msg with league := none } =
        .error (.stopController "Ambiguous leagues.") := by
      unfold findLeagueByMessageText
      rw [if_pos h2]
    have hgl : getLeague bot msg false =
        .error (.stopController "Ambiguous leagues.") := by
      simp [getLeague, hname, hid, hfl]
    have hgl' : getLeague bot { msg with league := none } false =
        .error (.stopController "Ambiguous leagues.") := by
      simp [getLeague]
      rw [show nameBinding bot ({ msg with league := none } :
            CommandMessage).channel = none from hname,
        show idBinding bot ({ msg with league := none } :
            CommandMessage).channel = none from hid]
      exact hfl'
    refine ⟨hfl, hgl, ?_⟩
    simp [handleMatch, hgl']
  · intro p hp
    unfold findLeagueByMessageText
    rw [hp]
    simp
  · intro hp
    unfold findLeagueByMessageText
    rw [hp]
    simp

/-- A bot with two leagues that tie under a constant fuzzy score, so any
text reduces to both. -/
def ambigBot : Bot :=
  { leagues := [⟨"a", [], []⟩, ⟨"b", [], []⟩], score := fun _ _ => 1 }

/-- A message in an unbound channel, fuzzy-ambiguous under `ambigBot`. -/
def ambigMsg : CommandMessage :=
  { user := "U1", channel := ⟨"C1", "", false, false⟩
    text := "x", ts := "1", matchesList := [] }

/-- A plain command listener whose callback would reply. -/
def ambigListener : BotListener :=
  { ltype := .command, callback := fun _ => (["hi"], .ok ()) }

/-- Claim C4 (counterexample): at a concrete ambiguous input the resolution
failure is the distinct Ambiguous abort, but the dispatch sends *no*
user-facing disambiguation reply — the `StopControllerError` escapes
`handleMatch` (which was entered before its try/catch) with an empty reply
list, refuting the claimed user-facing disambiguation reply. -/
theorem ambiguous_no_reply_counterexample :
    handleMatch ambigBot ambigListener ambigMsg =
      (emptyDispatch, some (.stopController "Ambiguous leagues.")) ∧
    emptyDispatch.replies = [] ∧
    emptyDispatch.callbackInvoked = false := by
  refine ⟨rfl, rfl, rfl⟩

/-- Claim C4 (witness): the amended theorem applied at the concrete
ambiguous input: two distinct leagues tie, resolution raises the Ambiguous
abort, and the dispatch ends with the error escaped and nothing sent. -/
theorem findLeague_ambiguity_witness :
    findLeagueByMessageText ambigBot ambigMsg =
      .error (.stopController "Ambiguous leagues.") ∧
    handleMatch ambigBot ambigListener ambigMsg =
      (emptyDispatch, some (.stopController "Ambiguous leagues.")) := by
  have h := (findLeague_ambiguity ambigBot ambigMsg ambigListener rfl rfl).1
    (by decide)
  exact ⟨h.1, h.2.2⟩

/-- Claim C5 (amended): when a matched `league_command` listener lacks a
resolved league or a resolved member, the dispatch is *totally* silent:
the callback is not invoked, no reply is sent, and — contrary to the claim
— no warning is logged either (the source's warning branch is unreachable,
because the league/member check that guards it is the same one that already
removed `league_command` from the allowed types); plain `command` listeners
still run in that situation. -/
theorem leagueCommand_silent_downgrade (bot : Bot) (msg : CommandMessage)
    (mws : Option (List BotMiddlewareFn))
    (cb cb2 : CommandMessage → List String × Except ChessterError Unit)
    (ol : Option League)
    (hgl : getLeague bot { msg with league := none } false = .ok ol)
    (hmiss : ol = none ∨ resolvedMember bot msg = none) :
    handleMatch bot
        { ltype := .league_command, middleware := mws, callback := cb }
        msg = (emptyDispatch, none) ∧
    (∀ rs, cb2 (commandObj bot msg ol) = (rs, .ok ()) →
      handleMatch bot
          { ltype := .command, middleware := none, callback := cb2 } msg =
        ({ replies := rs, callbackInvoked := true, warnLogged := false
           errorCaughtLogged := false }, none)) := by
  constructor
  · simp only [handleMatch, hgl]
    rcases hmiss with hol | hmem
    · subst hol
      simp [emptyDispatch]
    · rw [hmem]
      simp [emptyDispatch]
  · intro rs hcb
    simp only [handleMatch, hgl]
    simp only [commandObj] at hcb
    simp [runBotMiddleware, Option.getD, hcb]

/-- A bot with no leagues and no known users. -/
def silentBot : Bot := { score := fun _ _ => 0 }

/-- A message in an unbound ambient channel from an unknown user. -/
def silentMsg : CommandMessage :=
  { user := "U1", channel := ⟨"C1", "", false, false⟩
    text := "pairings", ts := "1", matchesList := [] }

/-- A league-scoped listener whose callback would reply. -/
def silentListener : BotListener :=
  { ltype := .league_command, callback := fun _ => (["pairings output"], .ok ()) }

/-- A plain command callback that records that it ran. -/
def plainCb : CommandMessage → List String × Except ChessterError Unit :=
  fun _ => (["plain ran"], .ok ())

/-- Claim C5 (counterexample): at a concrete message with no resolvable
league and no resolvable member, the matched `league_command` dispatch ends
with the callback not invoked, no reply sent, and `warnLogged = false` —
refuting the clause that a warning is logged (the source's
"Cannot execute league command" warning is dead code). -/
theorem leagueCommand_downgrade_counterexample :
    handleMatch silentBot silentListener silentMsg = (emptyDispatch, none) ∧
    emptyDispatch.warnLogged = false ∧
    emptyDispatch.replies = [] ∧
    emptyDispatch.callbackInvoked = false := by
  refine ⟨rfl, rfl, rfl, rfl⟩

/-- Claim C5 (witness): the amended theorem at the concrete input: the
league command is silently dropped while a plain command listener still
runs and replies. -/
theorem leagueCommand_silent_downgrade_witness :
    handleMatch silentBot silentListener silentMsg = (emptyDispatch, none) ∧
    handleMatch silentBot
        { ltype := .command, middleware := none, callback := plainCb }
        silentMsg =
      ({ replies := ["plain ran"], callbackInvoked := true
         warnLogged := false, errorCaughtLogged := false }, none) := by
  have h := leagueCommand_silent_downgrade silentBot silentMsg none
    silentListener.callback plainCb none rfl (Or.inl rfl)
  exact ⟨h.1, h.2 ["plain ran"] rfl⟩

/-- Claim C6 (amended): an exception thrown by a matched listener's
callback never propagates out of either dispatch boundary; in the
events-API boundary `processChessterMessage` it is caught, logged, and
answered with the generic apologetic reply, while in `SlackBot.handleMatch`
it is caught and logged by the inner catch but *no* apologetic reply is
sent (the "terribly terribly wrong" reply there is reachable only from the
outer catch, which a callback fault never reaches). -/
theorem callbackFault_boundary (text user : String) (channel : SlackChannel)
    (ts : String) (botUserId : Option String) (isDirectMention : Bool)
    (listeners : List Listener) (l : Listener) (ms rs : List String)
    (e : ChessterError)
    (hfind : findMatchingListener listeners
        (normalizedTextOf text botUserId isDirectMention)
        (determineMessageContext channel isDirectMention) = some (l, ms))
    (hcb : l.callback (processedMessageOf text user channel ts botUserId
        isDirectMention l ms) = (rs, .error e)) :
    processChessterMessage text user channel ts botUserId isDirectMention
        listeners = (rs ++ [processErrorReply], true) ∧
    (∀ (bot : Bot) (msg : CommandMessage)
        (mws : Option (List BotMiddlewareFn))
        (cb : CommandMessage → List String × Except ChessterError Unit)
        (ol : Option League) (rsm rs2 : List String) (e2 : ChessterError),
      getLeague bot { msg with league := none } false = .ok ol →
      runBotMiddleware (mws.getD []) (commandObj bot msg ol) = (rsm, none) →
      cb (commandObj bot msg ol) = (rs2, .error e2) →
      handleMatch bot
          { ltype := .command, middleware := mws, callback := cb } msg =
        ({ replies := rsm ++ rs2, callbackInvoked := true, warnLogged := false
           errorCaughtLogged := true }, none)) ∧
    (∀ (bot : Bot) (msg : CommandMessage)
        (mws : Option (List BotMiddlewareFn))
        (cb : CommandMessage → List String × Except ChessterError Unit)
        (lg : League) (mem : LeagueMember) (rsm rs2 : List String)
        (e2 : ChessterError),
      getLeague bot { msg with league := none } false = .ok (some lg) →
      resolvedMember bot msg = some mem →
      runBotMiddleware (mws.getD []) (gatedMessage bot msg (some lg)) =
        (rsm, none) →
      cb (leagueCommandObj bot msg lg mem) = (rs2, .error e2) →
      handleMatch bot
          { ltype := .league_command, middleware := mws, callback := cb }
          msg =
        ({ replies := rsm ++ rs2, callbackInvoked := true, warnLogged := false
           errorCaughtLogged := true }, none)) := by
  refine ⟨?_, ?_, ?_⟩
  · simp only [processChessterMessage, hfind, hcb]
  · intro bot msg mws cb ol rsm rs2 e2 hgl hmw hcb2
    simp only [handleMatch, hgl]
    simp only [commandObj] at hmw hcb2
    simp only [hmw, hcb2]
  · intro bot msg mws cb lg mem rsm rs2 e2 hgl hmem hmw hcb2
    simp only [handleMatch, hgl, hmem, Option.isSome_some, Bool.and_self,
      if_true]
    simp only [hmw, hcb2]

/-- A bot with no leagues and no known users, for the callback-fault
counterexample. -/
def faultBot : Bot := { score := fun _ _ => 0 }

/-- A message in an unbound channel. -/
def faultMsg : CommandMessage :=
  { user := "U1", channel := ⟨"C1", "", false, false⟩
    text := "boom", ts := "1", matchesList := [] }

/-- A callback that throws without sending anything. -/
def throwingCb : CommandMessage → List String × Except ChessterError Unit :=
  fun _ => ([], .error (.genericError "boom"))

/-- Claim C6 (counterexample): a concrete throwing callback dispatched
through `SlackBot.handleMatch` is caught and logged, but the reply list is
empty — no generic apologetic reply is sent from that boundary, refuting
the claim that every dispatch callback fault is answered with one. -/
theorem callbackFault_no_apology_counterexample :
    handleMatch faultBot
        { ltype := .command, middleware := none, callback := throwingCb }
        faultMsg =
      ({ replies := [], callbackInvoked := true, warnLogged := false
         errorCaughtLogged := true }, none) := by
  rfl

/-- A direct-mention listener whose callback replies once and then
throws. -/
def mentionListener : Listener :=
  { patterns := [fun t => if t = "help" then some ["help"] else none]
    messageTypes := [.direct_mention]
    callback := fun _ => (["partial"], .error (.genericError "mid failure")) }

/-- A bot whose channel-id binding and user index both resolve, so a
league-scoped dispatch reaches its callback. -/
def lcBot : Bot :=
  { channelMap := [("C1", "a")]
    leagues := [⟨"a", [], ["memlich"]⟩]
    users := { byId := [("U1", ⟨"U1", "mem", "memlich"⟩)] }
    score := fun _ _ => 0 }

/-- A message from the indexed user in the league-bound channel. -/
def lcMsg : CommandMessage :=
  { user := "U1", channel := ⟨"C1", "chan", false, false⟩
    text := "pairings", ts := "1", matchesList := [] }

/-- A middleware that sends one reply and passes the message through. -/
def passMw : BotMiddlewareFn := fun m => (["mw note"], .ok m)

/-- Claim C6 (witness): the amended theorem at concrete inputs: the
events-API boundary answers the fault with the generic apology after the
callback's own replies; the `handleMatch` boundary swallows the fault of a
plain command callback with no reply; and it equally swallows the fault of
a league-scoped callback behind a reply-sending middleware, keeping only
the middleware's reply. -/
theorem callbackFault_boundary_witness :
    processChessterMessage "<@U9> help" "U1" ⟨"C1", "gen", false, false⟩ "1"
        (some "U9") true [mentionListener] =
      (["partial", processErrorReply], true) ∧
    handleMatch faultBot
        { ltype := .command, middleware := none, callback := throwingCb }
        faultMsg =
      ({ replies := [], callbackInvoked := true, warnLogged := false
         errorCaughtLogged := true }, none) ∧
    handleMatch lcBot
        { ltype := .league_command, middleware := some [passMw]
          callback := throwingCb } lcMsg =
      ({ replies := ["mw note"], callbackInvoked := true, warnLogged := false
         errorCaughtLogged := true }, none) := by
  have h := callbackFault_boundary "<@U9> help" "U1" ⟨"C1", "gen", false, false⟩
    "1" (some "U9") true [mentionListener] mentionListener ["help"] ["partial"]
    (.genericError "mid failure") rfl rfl
  refine ⟨h.1, ?_, ?_⟩
  · exact h.2.1 faultBot faultMsg none throwingCb none [] []
      (.genericError "boom") rfl rfl rfl
  · exact h.2.2 lcBot lcMsg (some [passMw]) throwingCb
      ⟨"a", [], ["memlich"]⟩ ⟨"U1", "mem", "memlich"⟩ ["mw note"] []
      (.genericError "boom") rfl rfl rfl rfl

end Chesster
